/-
Verification of the SkopeGPT local-first offline queue and sync engine.

This file gives a shallow embedding, in Lean 4, of the parts of the
repository that the specification's claims are about:

* `src/lib/db/dexie.ts` — the Dexie/IndexedDB local store (`GoalAppDB`),
  its sync-event queue helpers (`queueSyncEvent`, `markEventSynced`,
  `clearAllLocalData`) and the rolling-success computation;
* `src/domain/daily-log.actions.ts` — `logDone` and `logSkip`;
* `src/domain/microsteps.ts` — `completeOnboarding` and
  `parseMinutesFromTitle`;
* the offline queue / sync engine (`queueOperation`, `syncQueue`,
  `setupSyncListeners`) in both of its versions found in the repository:
  the current `SyncEvent`-based one (namespace `Sync`) and the legacy
  `QueuedOperation`-based one (namespace `SyncV1`).

Modelling conventions:
* IndexedDB tables are Lean lists in insertion order; Dexie's
  auto-increment `++id` key of `sync_events` is an explicit counter.
* Calendar dates (`YYYY-MM-DD` strings in the source) are day ordinals
  (`Nat`); the source only ever compares them for equality and range, and
  both orders agree.
* JSON payloads are a structured inductive carrying exactly the fields
  the source puts in each payload object.
* Remote calls (`fetch` in `executeOperation`) are an oracle parameter:
  a function deciding, per queued record (and per drain pass for the
  multi-pass theorems), whether the call succeeds or throws.
* `await`-interleaving and interruption (page unload) are modelled by
  running explicit prefixes of the sequence of durable writes, and, for
  the listener-level concurrency model, by a small-step scheduler.
-/
import Mathlib

/-! ## Data model (src/lib/db/dexie.ts, src/lib/schemas) -/

/-- Sync status tag carried by every local entity (`SyncStatus` in dexie.ts). -/
inductive SyncStatus
  | pending
  | synced
  | conflict
deriving DecidableEq

/-- Outcome of a daily log (`'done' | 'skipped'`). -/
inductive Outcome
  | done
  | skipped
deriving DecidableEq

/-- Skip reason (`'too_hard' | 'bad_timing' | 'low_energy' | 'forgot'`). -/
inductive SkipReason
  | too_hard
  | bad_timing
  | low_energy
  | forgot
deriving DecidableEq

/-- Integration status (`'not_yet' | 'almost' | 'yes'`). -/
inductive IntegrationStatus
  | not_yet
  | almost
  | yes
deriving DecidableEq

/-- Goal status (`'active' | 'paused' | 'baseline'`). -/
inductive GoalStatus
  | active
  | paused
  | baseline
deriving DecidableEq

/-- Coach persona preset. -/
inductive CoachPreset
  | drill
  | socratic
  | compassionate
  | engineer
deriving DecidableEq

/-- Energy budget (`'tiny' | 'small' | 'medium' | 'big'`). -/
inductive EnergyBudget
  | tiny
  | small
  | medium
  | big
deriving DecidableEq

/-- Operation type of a queued sync event (`SyncEvent.type` in dexie.ts). -/
inductive SyncEventType
  | create_goal
  | update_goal
  | delete_goal
  | create_seed
  | update_seed
  | delete_seed
  | log_done
  | log_skip
  | update_integration
deriving DecidableEq

/-- JSON payload of a sync event, structured per the object literals the
source passes to `queueSyncEvent` / `queueOperation`. `raw` stands for a
payload the engine only ever treats opaquely (`JSON.stringify`). -/
inductive Payload
  | logDonePayload (seed_id : String) (date : Nat) (outcome : Outcome)
      (energy_after : Option Nat) (notes : Option String)
  | logSkipPayload (seed_id : String) (date : Nat) (outcome : Outcome)
      (skip_reason : SkipReason) (notes : Option String)
  | updateIntegrationPayload (rolling_success : ℚ) (status : IntegrationStatus)
  | createGoalPayload (title : String) (coach_preset : CoachPreset)
  | createSeedPayload (goal_id : String) (description : String) (minutes : Nat)
      (if_window : String) (if_context : Option String)
  | raw (s : String)
deriving DecidableEq

/-- Errors thrown by the local layer: the domain guard error
`new Error('Already logged for today')`, Dexie's `ConstraintError` on a
duplicate-key `add`, and storage-medium failures. -/
inductive Err
  | alreadyLogged
  | constraintError
  | storage (table : String)
deriving DecidableEq

/-- `LocalGoal` (dexie.ts): a `Goal` plus sync metadata. -/
structure LocalGoal where
  id : String
  user_id : String
  title : String
  status : GoalStatus
  coach_preset : CoachPreset
  sync_status : SyncStatus
  created_at : Nat
deriving DecidableEq

/-- `LocalSeed` (dexie.ts): a `Seed` plus sync metadata. -/
structure LocalSeed where
  id : String
  goal_id : String
  description : String
  minutes : Nat
  if_window : String
  if_context : Option String
  step_level : Nat
  active : Bool
  sync_status : SyncStatus
deriving DecidableEq

/-- `LocalDailyLog` (dexie.ts): a `DailyLog` plus sync metadata.
`date` is a day ordinal standing for the source's `YYYY-MM-DD` string. -/
structure LocalDailyLog where
  id : String
  seed_id : String
  date : Nat
  outcome : Outcome
  skip_reason : Option SkipReason
  energy_after : Option Nat
  notes : Option String
  sync_status : SyncStatus
  created_at : Nat
deriving DecidableEq

/-- `LocalIntegrationState` (dexie.ts). -/
structure LocalIntegrationState where
  seed_id : String
  rolling_success : ℚ
  status : IntegrationStatus
  sync_status : SyncStatus
  updated_at : Nat
deriving DecidableEq

/-- `LocalPreferences` (dexie.ts). -/
structure LocalPreferences where
  id : String
  energy_baseline : EnergyBudget
  coach_preset : CoachPreset
  notifications_enabled : Bool
  quiet_hours_start : Option String
  quiet_hours_end : Option String
  updated_at : Nat
deriving DecidableEq

/-- A row of the `sync_events` table (`SyncEvent` in dexie.ts). `id` is
Dexie's auto-increment surrogate key, `created_at` a timestamp. -/
structure SyncEvent where
  id : Nat
  type : SyncEventType
  entity_id : String
  payload : Payload
  created_at : Nat
  synced : Bool
deriving DecidableEq

/-- The argument of `queueSyncEvent`: `Omit<SyncEvent, 'id' | 'created_at'
| 'synced'>`. -/
structure SyncEventData where
  type : SyncEventType
  entity_id : String
  payload : Payload
deriving DecidableEq

/-- The whole local database (`GoalAppDB`): one list per object store, in
insertion order, plus the auto-increment counter of `sync_events`. -/
structure DBState where
  goals : List LocalGoal
  seeds : List LocalSeed
  daily_logs : List LocalDailyLog
  integration_states : List LocalIntegrationState
  sync_events : List SyncEvent
  preferences : List LocalPreferences
  nextEventId : Nat
deriving DecidableEq

/-! ## Dexie helper functions (src/lib/db/dexie.ts) -/

/-- `queueSyncEvent(event)`: append to `sync_events` with a fresh
auto-increment id, `created_at` now, `synced: false`. -/
def queueSyncEvent (now : Nat) (d : SyncEventData) (s : DBState) : DBState :=
  { s with
    sync_events := s.sync_events ++
      [⟨s.nextEventId, d.type, d.entity_id, d.payload, now, false⟩]
    nextEventId := s.nextEventId + 1 }

/-- `markEventSynced(eventId)`: `db.sync_events.update(eventId, { synced:
true })` — sets the flag on the record with that primary key; a miss or an
already-set flag is a no-op, never an error. -/
def markEventSynced (eventId : Nat) (s : DBState) : DBState :=
  { s with
    sync_events := s.sync_events.map fun e =>
      if e.id = eventId then { e with synced := true } else e }

/-- `getPendingSyncEvents()`: unconsumed events
(`where('synced').equals(0)`), in queue order. -/
def getPendingSyncEvents (s : DBState) : List SyncEvent :=
  s.sync_events.filter fun e => !e.synced

/-- `getDailyLogsForSeed(seedId, startDate, endDate)`: logs of the seed
with `date` in the inclusive range. -/
def getDailyLogsForSeed (s : DBState) (seedId : String)
    (startDate endDate : Nat) : List LocalDailyLog :=
  s.daily_logs.filter fun l =>
    l.seed_id == seedId && startDate ≤ l.date && l.date ≤ endDate

/-- `getRecentLogs(seedId, days)`: logs over the trailing `days`-day
window ending today. -/
def getRecentLogs (s : DBState) (today : Nat) (seedId : String)
    (days : Nat) : List LocalDailyLog :=
  getDailyLogsForSeed s seedId (today - days) today

/-- `calculateRollingSuccess(seedId, days)`: fraction of `done` outcomes
among the recent logs, `0` when there are none. -/
def calculateRollingSuccess (s : DBState) (today : Nat) (seedId : String)
    (days : Nat) : ℚ :=
  let logs := getRecentLogs s today seedId days
  if logs.length = 0 then 0
  else ((logs.filter fun l => l.outcome == Outcome.done).length : ℚ) / (logs.length : ℚ)

/-- Storage-failure oracle for `clearAllLocalData`: whether each table's
`.clear()` call throws a storage error. -/
structure ClearFailures where
  goals : Bool
  seeds : Bool
  daily_logs : Bool
  integration_states : Bool
  sync_events : Bool
deriving DecidableEq

/-- `db.transaction('rw', ..., work)`: Dexie transactions are
all-or-nothing — on success the new state commits, on an exception inside
`work` every write is rolled back and the state is unchanged. -/
def transactionRW (work : DBState → Except Err DBState) (s : DBState) :
    DBState × Option Err :=
  match work s with
  | .ok s' => (s', none)
  | .error e => (s, some e)

/-- The body of `clearAllLocalData`'s transaction: clear the five stores
in source order, aborting at the first storage failure. -/
def clearAllWork (fl : ClearFailures) (s : DBState) : Except Err DBState := do
  let s ← if fl.goals then .error (Err.storage "goals")
          else .ok { s with goals := [] }
  let s ← if fl.seeds then .error (Err.storage "seeds")
          else .ok { s with seeds := [] }
  let s ← if fl.daily_logs then .error (Err.storage "daily_logs")
          else .ok { s with daily_logs := [] }
  let s ← if fl.integration_states then .error (Err.storage "integration_states")
          else .ok { s with integration_states := [] }
  if fl.sync_events then .error (Err.storage "sync_events")
  else .ok { s with sync_events := [] }

/-- `clearAllLocalData()`: one `rw` transaction over goals, seeds,
daily_logs, integration_states and sync_events clearing each in turn.
The `preferences` table is not among the cleared stores. -/
def clearAllLocalData (fl : ClearFailures) (s : DBState) : DBState × Option Err :=
  transactionRW (clearAllWork fl) s

/-! ## Durable writes and interruption (domain actions)

A domain action performs a sequence of durable writes: some inside one
Dexie `rw` transaction (atomic), the rest as standalone awaited calls.
Interrupting the process (crash, page unload) between awaits is modelled
by applying only a prefix of the action's commit list. -/

/-- One table write a domain action performs. -/
inductive TableWrite
  | addDailyLog (l : LocalDailyLog)
  | putIntegrationState (st : LocalIntegrationState)
  | addGoal (g : LocalGoal)
  | addSeed (sd : LocalSeed)
  | addIntegrationState (st : LocalIntegrationState)
  | addSyncEvent (d : SyncEventData) (now : Nat)
deriving DecidableEq

/-- Whether a write is an append to the sync-event queue. -/
def TableWrite.isSyncEventAppend : TableWrite → Bool
  | .addSyncEvent _ _ => true
  | _ => false

/-- Apply one table write. Dexie `add` rejects with a `ConstraintError`
when the primary key already exists; `put` inserts or replaces. -/
def applyWrite (w : TableWrite) (s : DBState) : Except Err DBState :=
  match w with
  | .addDailyLog l =>
    if s.daily_logs.any fun l' => l'.id == l.id then .error .constraintError
    else .ok { s with daily_logs := s.daily_logs ++ [l] }
  | .putIntegrationState st =>
    if s.integration_states.any fun st' => st'.seed_id == st.seed_id then
      .ok { s with integration_states := s.integration_states.map fun st' =>
              if st'.seed_id == st.seed_id then st else st' }
    else .ok { s with integration_states := s.integration_states ++ [st] }
  | .addGoal g =>
    if s.goals.any fun g' => g'.id == g.id then .error .constraintError
    else .ok { s with goals := s.goals ++ [g] }
  | .addSeed sd =>
    if s.seeds.any fun sd' => sd'.id == sd.id then .error .constraintError
    else .ok { s with seeds := s.seeds ++ [sd] }
  | .addIntegrationState st =>
    if s.integration_states.any fun st' => st'.seed_id == st.seed_id then
      .error .constraintError
    else .ok { s with integration_states := s.integration_states ++ [st] }
  | .addSyncEvent d now => .ok (queueSyncEvent now d s)

/-- Apply a list of writes in order, stopping at the first error. -/
def applyWrites : List TableWrite → DBState → Except Err DBState
  | [], s => .ok s
  | w :: ws, s =>
    match applyWrite w s with
    | .ok s' => applyWrites ws s'
    | .error e => .error e

/-- One durable commit: a Dexie transaction over several writes
(all-or-nothing), or a single standalone awaited write. -/
inductive Commit
  | tx (ws : List TableWrite)
  | single (w : TableWrite)
deriving DecidableEq

/-- The writes a commit carries. -/
def Commit.writes : Commit → List TableWrite
  | .tx ws => ws
  | .single w => [w]

/-- Apply one commit; a failing transaction rolls back to the entry
state. -/
def applyCommit (c : Commit) (s : DBState) : DBState × Option Err :=
  match c with
  | .tx ws =>
    match applyWrites ws s with
    | .ok s' => (s', none)
    | .error e => (s, some e)
  | .single w =>
    match applyWrite w s with
    | .ok s' => (s', none)
    | .error e => (s, some e)

/-- Apply commits in order until one fails; an interrupted run applies
only a prefix of the list. -/
def applyCommits : List Commit → DBState → DBState × Option Err
  | [], s => (s, none)
  | c :: cs, s =>
    match applyCommit c s with
    | (s', none) => applyCommits cs s'
    | (s', some e) => (s', some e)

/-! ## Daily log actions (src/domain/daily-log.actions.ts) -/

/-- `LogDoneParams`. -/
structure LogDoneParams where
  seedId : String
  notes : Option String
  energyAfter : Option Nat
deriving DecidableEq

/-- Return value of `logDone`. -/
structure LogDoneResult where
  log : LocalDailyLog
  integrationState : LocalIntegrationState
  showIntegrationCheck : Bool
deriving DecidableEq

/-- `logDone(params)`: guard against a second log for the same seed and
day, then write the log and the integration state in one transaction,
then queue the two sync events as separate awaited writes, then compute
the integration-check flag. Returns the final state, the durable commits
performed, and the result or thrown error. `today` is the device date,
`logId` the generated UUID, `now` the clock. -/
def logDone (today : Nat) (logId : String) (now : Nat) (p : LogDoneParams)
    (s : DBState) : DBState × List Commit × Except Err LogDoneResult :=
  match s.daily_logs.find? fun l => l.seed_id == p.seedId && l.date == today with
  | some _ => (s, [], .error .alreadyLogged)
  | none =>
    let dailyLog : LocalDailyLog :=
      ⟨logId, p.seedId, today, .done, none, p.energyAfter, p.notes, .pending, now⟩
    let newRollingSuccess := calculateRollingSuccess s today p.seedId 14
    let integrationState : LocalIntegrationState :=
      match s.integration_states.find? fun st => st.seed_id == p.seedId with
      | none => ⟨p.seedId, newRollingSuccess, .not_yet, .pending, now⟩
      | some st =>
        { st with rolling_success := newRollingSuccess, sync_status := .pending,
                  updated_at := now }
    let c1 : Commit := .tx [.addDailyLog dailyLog, .putIntegrationState integrationState]
    match applyCommit c1 s with
    | (s1, some e) => (s1, [c1], .error e)
    | (s1, none) =>
      let c2 : Commit := .single (.addSyncEvent
        ⟨.log_done, logId,
         .logDonePayload p.seedId today .done p.energyAfter p.notes⟩ now)
      let s2 := (applyCommit c2 s1).1
      let c3 : Commit := .single (.addSyncEvent
        ⟨.update_integration, p.seedId,
         .updateIntegrationPayload integrationState.rolling_success
           integrationState.status⟩ now)
      let s3 := (applyCommit c3 s2).1
      let recentLogs := s3.daily_logs.filter fun l => l.seed_id == p.seedId
      let showIntegrationCheck :=
        decide (7 ≤ recentLogs.length) &&
        decide ((7 / 10 : ℚ) ≤ newRollingSuccess) &&
        integrationState.status == IntegrationStatus.not_yet
      (s3, [c1, c2, c3], .ok ⟨dailyLog, integrationState, showIntegrationCheck⟩)

/-- `LogSkipParams`. -/
structure LogSkipParams where
  seedId : String
  skipReason : SkipReason
  notes : Option String
deriving DecidableEq

/-- `logSkip(params)`: guard against a second log for the same seed and
day, then write the log (standalone `add`, no transaction), then queue
the sync event. -/
def logSkip (today : Nat) (logId : String) (now : Nat) (p : LogSkipParams)
    (s : DBState) : DBState × List Commit × Except Err LocalDailyLog :=
  match s.daily_logs.find? fun l => l.seed_id == p.seedId && l.date == today with
  | some _ => (s, [], .error .alreadyLogged)
  | none =>
    let dailyLog : LocalDailyLog :=
      ⟨logId, p.seedId, today, .skipped, some p.skipReason, none, p.notes,
       .pending, now⟩
    let c1 : Commit := .single (.addDailyLog dailyLog)
    match applyCommit c1 s with
    | (s1, some e) => (s1, [c1], .error e)
    | (s1, none) =>
      let c2 : Commit := .single (.addSyncEvent
        ⟨.log_skip, logId,
         .logSkipPayload p.seedId today .skipped p.skipReason p.notes⟩ now)
      let s2 := (applyCommit c2 s1).1
      (s2, [c1, c2], .ok dailyLog)

/-! ## Onboarding actions (src/domain/microsteps.ts) -/

/-- Whitespace characters matched by the regex class `\s`. -/
def isJsWhitespace (c : Char) : Bool :=
  c == ' ' || c == '\t' || c == '\n' || c == '\x0d' || c == '\x0c' || c == '\x0b'

/-- Case-insensitive test that `cs` starts with the letters of `word`. -/
def startsWithCaseless (word : List Char) (cs : List Char) : Bool :=
  match word, cs with
  | [], _ => true
  | _ :: _, [] => false
  | w :: ws, c :: cs => w.toLower == c.toLower && startsWithCaseless ws cs

/-- Value of a digit-character run, most significant first. -/
def digitsToNat (acc : Nat) : List Char → Nat
  | [] => acc
  | c :: cs => digitsToNat (acc * 10 + (c.toNat - '0'.toNat)) cs

/-- Scan for the first position matching the regex `(\d+)[\s-]minute`
(case-insensitive): a maximal digit run followed by a whitespace or
hyphen and the word "minute". Returns the captured number. -/
def scanMinutes : List Char → Option Nat
  | [] => none
  | c :: cs =>
    if c.isDigit then
      let run := (c :: cs).takeWhile Char.isDigit
      let rest := (c :: cs).dropWhile Char.isDigit
      match rest with
      | r :: rs =>
        if (isJsWhitespace r || r == '-') && startsWithCaseless "minute".toList rs then
          some (digitsToNat 0 run)
        else scanMinutes cs
      | [] => none
    else scanMinutes cs

/-- `parseMinutesFromTitle(title)`: `title.match(/(\d+)[\s-]minute/i)`,
`parseInt` of the captured digits, defaulting to 2 on no match. -/
def parseMinutesFromTitle (title : String) : Nat :=
  match scanMinutes title.toList with
  | some n => n
  | none => 2

/-- `CompleteOnboardingParams`. -/
structure CompleteOnboardingParams where
  horizon : String
  energy : EnergyBudget
  coachPreset : CoachPreset
  seedDescription : String
  seedMinutes : Option Nat
  ifWindow : Option String
  ifContext : Option String
deriving DecidableEq

/-- Return value of `completeOnboarding`. -/
structure CompleteOnboardingResult where
  goal : LocalGoal
  seed : LocalSeed
  integrationState : LocalIntegrationState
deriving DecidableEq

/-- `completeOnboarding(params)`: create the goal, first seed and
integration state in one transaction, then queue the three sync events
as separate awaited writes. `goalId` and `seedId` are the generated
UUIDs, `now` the clock. -/
def completeOnboarding (goalId seedId : String) (now : Nat)
    (p : CompleteOnboardingParams) (s : DBState) :
    DBState × List Commit × Except Err CompleteOnboardingResult :=
  let ifWindow := p.ifWindow.getD "morning"
  let seedMinutes := p.seedMinutes.getD (parseMinutesFromTitle p.seedDescription)
  let userId := "local-user"
  let goal : LocalGoal :=
    ⟨goalId, userId, p.horizon, .active, p.coachPreset, .pending, now⟩
  let seed : LocalSeed :=
    ⟨seedId, goalId, p.seedDescription, seedMinutes, ifWindow, p.ifContext, 0,
     true, .pending⟩
  let integrationState : LocalIntegrationState :=
    ⟨seedId, 0, .not_yet, .pending, now⟩
  let c1 : Commit := .tx [.addGoal goal, .addSeed seed,
                          .addIntegrationState integrationState]
  match applyCommit c1 s with
  | (s1, some e) => (s1, [c1], .error e)
  | (s1, none) =>
    let c2 : Commit := .single (.addSyncEvent
      ⟨.create_goal, goalId, .createGoalPayload p.horizon p.coachPreset⟩ now)
    let s2 := (applyCommit c2 s1).1
    let c3 : Commit := .single (.addSyncEvent
      ⟨.create_seed, seedId,
       .createSeedPayload goalId p.seedDescription seedMinutes ifWindow
         p.ifContext⟩ now)
    let s3 := (applyCommit c3 s2).1
    let c4 : Commit := .single (.addSyncEvent
      ⟨.update_integration, seedId, .updateIntegrationPayload 0 .not_yet⟩ now)
    let s4 := (applyCommit c4 s3).1
    (s4, [c1, c2, c3, c4], .ok ⟨goal, seed, integrationState⟩)

/-! ## Sync engine, current version (src/unnamed/part_016)

`syncQueue` snapshots the whole `sync_events` table (`toArray`), skips
records whose snapshot copy is already `synced`, and for each remaining
record performs the remote call (`executeOperation`); on success it sets
`synced: true` on the table row, on failure it only logs and counts. The
returned `pending` is `db.syncQueue.count()` — the total row count.
The remote call is an oracle `ok : SyncEvent → Bool`; the trace lists
each attempted call as `(event id, succeeded?)`. -/

namespace Sync

/-- Result summary returned by `syncQueue`. -/
structure SyncResult where
  synced : Nat
  failed : Nat
  pending : Nat
deriving DecidableEq

/-- `db.syncQueue.update(id, { synced: true })` on the live table. -/
def markSyncedList (i : Nat) (q : List SyncEvent) : List SyncEvent :=
  q.map fun e => if e.id = i then { e with synced := true } else e

/-- The `for (const event of operations)` loop: `snap` is the remaining
snapshot, `dbq` the live table, with running counts and call trace. -/
def syncQueueGo (ok : SyncEvent → Bool) :
    List SyncEvent → List SyncEvent → Nat → Nat → List (Nat × Bool) →
    List SyncEvent × Nat × Nat × List (Nat × Bool)
  | [], dbq, syncedCt, failedCt, trace => (dbq, syncedCt, failedCt, trace)
  | e :: rest, dbq, syncedCt, failedCt, trace =>
    if e.synced then syncQueueGo ok rest dbq syncedCt failedCt trace
    else if ok e then
      syncQueueGo ok rest (markSyncedList e.id dbq) (syncedCt + 1) failedCt
        (trace ++ [(e.id, true)])
    else
      syncQueueGo ok rest dbq syncedCt (failedCt + 1) (trace ++ [(e.id, false)])

/-- Output of one drain pass: the table afterwards, the returned result
summary, and the remote-call trace. -/
structure PassOutput where
  queue : List SyncEvent
  result : SyncResult
  trace : List (Nat × Bool)
deriving DecidableEq

/-- `syncQueue()`: one drain pass over the snapshot of the table. -/
def syncQueue (ok : SyncEvent → Bool) (q : List SyncEvent) : PassOutput :=
  if q.isEmpty then ⟨q, ⟨0, 0, 0⟩, []⟩
  else
    let (dbq, s, f, tr) := syncQueueGo ok q q 0 0 []
    ⟨dbq, ⟨s, f, dbq.length⟩, tr⟩

/-- A drain pass interrupted (page unload) after `k` records of the
snapshot have been handled: only the first `k` snapshot entries run. -/
def syncQueuePartial (ok : SyncEvent → Bool) (k : Nat) (q : List SyncEvent) :
    PassOutput :=
  let (dbq, s, f, tr) := syncQueueGo ok (q.take k) q 0 0 []
  ⟨dbq, ⟨s, f, dbq.length⟩, tr⟩

/-- Repeated drain passes: pass `i` uses the remote behaviour `oks i`.
Returns the final table and the concatenated remote-call trace. -/
def drainGo (oks : Nat → SyncEvent → Bool) :
    Nat → List SyncEvent → List SyncEvent × List (Nat × Bool)
  | 0, q => (q, [])
  | n + 1, q =>
    ((drainGo (fun k => oks (k + 1)) n (syncQueue (oks 0) q).queue).1,
     (syncQueue (oks 0) q).trace ++
       (drainGo (fun k => oks (k + 1)) n (syncQueue (oks 0) q).queue).2)

/-- Table contents after `n` drain passes. -/
def drainQueue (oks : Nat → SyncEvent → Bool) (n : Nat) (q : List SyncEvent) :
    List SyncEvent :=
  (drainGo oks n q).1

/-- Remote-call trace accumulated over `n` drain passes. -/
def drainTrace (oks : Nat → SyncEvent → Bool) (n : Nat) (q : List SyncEvent) :
    List (Nat × Bool) :=
  (drainGo oks n q).2

/-- Ids of the successful remote calls of a trace, in call order. -/
def successIds (tr : List (Nat × Bool)) : List Nat :=
  (tr.filter fun c => c.2).map fun c => c.1

/-- Elementwise effect of one pass on one record (derived form used by
the theorems): an unconsumed record whose call succeeds is marked, every
other record is untouched. -/
def passEvent (ok : SyncEvent → Bool) (e : SyncEvent) : SyncEvent :=
  if !e.synced && ok e then { e with synced := true } else e

end Sync

/-! ## Sync engine, legacy version (src/unnamed/part_015)

The legacy `syncQueue` works over its own `QueuedOperation` records with
a string id and a retry counter. On success the record is deleted; on
failure the counter is incremented and, once it reaches `MAX_RETRIES`,
the record is deleted and counted as `failed` (with a `console.error`
log); below the bound the updated record is `put` back. The thrown
error's message is stored in `lastError`; the remote behaviour is an
oracle returning `none` for success or `some message` for a throw. -/

namespace SyncV1

/-- Operation type of a legacy queued operation. -/
inductive OpType
  | LOG_DONE
  | LOG_SKIP
  | UPDATE_SEED
  | CREATE_GOAL
deriving DecidableEq

/-- `QueuedOperation` (legacy queue record). -/
structure QueuedOperation where
  id : String
  type : OpType
  payload : Payload
  timestamp : Nat
  retries : Nat
  lastError : Option String
deriving DecidableEq

/-- `MAX_RETRIES`. -/
def MAX_RETRIES : Nat := 3

/-- `db.syncQueue.delete(id)`: remove the record with that primary key. -/
def deleteById (i : String) (q : List QueuedOperation) : List QueuedOperation :=
  q.filter fun o => !(o.id == i)

/-- `db.syncQueue.put(op)`: insert or replace by primary key. -/
def putById (op : QueuedOperation) (q : List QueuedOperation) :
    List QueuedOperation :=
  if q.any fun o => o.id == op.id then
    q.map fun o => if o.id == op.id then op else o
  else q ++ [op]

/-- The legacy drain loop over the snapshot `snap`, threading the live
table `dbq` and the two counters. -/
def syncQueueGo (outcome : QueuedOperation → Option String) :
    List QueuedOperation → List QueuedOperation → Nat → Nat →
    List QueuedOperation × Nat × Nat
  | [], dbq, syncedCt, failedCt => (dbq, syncedCt, failedCt)
  | op :: rest, dbq, syncedCt, failedCt =>
    match outcome op with
    | none => syncQueueGo outcome rest (deleteById op.id dbq) (syncedCt + 1) failedCt
    | some msg =>
      let updatedOp := { op with retries := op.retries + 1, lastError := some msg }
      if MAX_RETRIES ≤ updatedOp.retries then
        syncQueueGo outcome rest (deleteById op.id dbq) syncedCt (failedCt + 1)
      else
        syncQueueGo outcome rest (putById updatedOp dbq) syncedCt failedCt

/-- Legacy `syncQueue()`: one drain pass; `pending` is the remaining row
count after the pass. -/
def syncQueue (outcome : QueuedOperation → Option String)
    (q : List QueuedOperation) : List QueuedOperation × Sync.SyncResult :=
  if q.isEmpty then (q, ⟨0, 0, 0⟩)
  else
    let (dbq, s, f) := syncQueueGo outcome q q 0 0
    (dbq, ⟨s, f, dbq.length⟩)

end SyncV1

/-! ## Listener-level concurrency (src/unnamed/part_016, `setupSyncListeners`)

`setupSyncListeners` wires three triggers — the `online` event, a
five-minute interval and the post-enqueue fast path — each of which
calls `syncQueue()` directly; the module holds no drain-in-progress
flag. Because every remote call is an `await` suspension point, two
triggered drains can interleave on the single-threaded event loop. The
model below runs two drain tasks as small-step state machines over the
shared table: each scheduler step advances the chosen task by one atomic
piece of its loop (take the snapshot; handle one snapshot record,
performing the remote call and the mark in that step; or finish). -/

namespace Listeners

/-- Progress of one triggered `syncQueue()` task. -/
inductive DrainPhase
  | idle
  | running (snapshot : List SyncEvent) (syncedCt failedCt : Nat)
  | finished (result : Sync.SyncResult)
deriving DecidableEq

/-- Shared table plus the two drain tasks (e.g. the `online`-event
trigger and the interval trigger). -/
structure SysState where
  queue : List SyncEvent
  drainA : DrainPhase
  drainB : DrainPhase
deriving DecidableEq

/-- One step of a drain task against the shared table: starting takes
the `toArray` snapshot unconditionally — the source consults no guard —
and each subsequent step handles one snapshot record, consulting the
snapshot copy's `synced` flag as the loop does. Returns the new phase,
the new table, and the remote call made, if any. -/
def stepDrain (ok : SyncEvent → Bool) (ph : DrainPhase) (q : List SyncEvent) :
    DrainPhase × List SyncEvent × Option (Nat × Bool) :=
  match ph with
  | .idle => (.running q 0 0, q, none)
  | .running [] s f => (.finished ⟨s, f, q.length⟩, q, none)
  | .running (e :: rest) s f =>
    if e.synced then (.running rest s f, q, none)
    else if ok e then
      (.running rest (s + 1) f, Sync.markSyncedList e.id q, some (e.id, true))
    else (.running rest s (f + 1), q, some (e.id, false))
  | .finished r => (.finished r, q, none)

/-- One scheduler step: advance task A (`who = true`) or B. The emitted
remote call is tagged with the task that made it. -/
def step (ok : SyncEvent → Bool) (who : Bool) (st : SysState) :
    SysState × Option (Bool × Nat × Bool) :=
  if who then
    let (ph, q, ev) := stepDrain ok st.drainA st.queue
    ({ st with drainA := ph, queue := q }, ev.map fun c => (true, c.1, c.2))
  else
    let (ph, q, ev) := stepDrain ok st.drainB st.queue
    ({ st with drainB := ph, queue := q }, ev.map fun c => (false, c.1, c.2))

/-- Run a schedule (a list of which task runs each step), collecting the
remote calls made. -/
def run (ok : SyncEvent → Bool) :
    List Bool → SysState → SysState × List (Bool × Nat × Bool)
  | [], st => (st, [])
  | w :: ws, st =>
    let (st', ev) := step ok w st
    let (stF, tr) := run ok ws st'
    (stF, ev.toList ++ tr)

end Listeners

/-! ## Derived forms of one drain pass -/

/-- Ids the pass marks: unconsumed snapshot records whose call succeeds. -/
def Sync.passMarks (ok : SyncEvent → Bool) (snap : List SyncEvent) : List Nat :=
  (snap.filter fun e => !e.synced && ok e).map SyncEvent.id

/-- Remote calls a pass makes over a snapshot: one per unconsumed record,
in snapshot order. -/
def Sync.passTrace (ok : SyncEvent → Bool) (snap : List SyncEvent) :
    List (Nat × Bool) :=
  snap.filterMap fun e => if e.synced then none else some (e.id, ok e)

/-- Apply a list of `synced` marks to the table. -/
def Sync.applyMarks (L : List Nat) (q : List SyncEvent) : List SyncEvent :=
  L.foldl (fun d i => Sync.markSyncedList i d) q

lemma Sync.applyMarks_eq_map (L : List Nat) (q : List SyncEvent) :
    Sync.applyMarks L q =
      q.map (fun e => if e.id ∈ L then { e with synced := true } else e) := by
  induction L generalizing q with
  | nil => simp [Sync.applyMarks]
  | cons i L ih =>
    show Sync.applyMarks L (Sync.markSyncedList i q) = _
    rw [ih, Sync.markSyncedList, List.map_map]
    congr 1
    funext e
    by_cases h : e.id = i
    · simp [h]
    · simp [h]

lemma Sync.syncQueueGo_spec (ok : SyncEvent → Bool) :
    ∀ (snap dbq : List SyncEvent) (s f : Nat) (tr : List (Nat × Bool)),
      Sync.syncQueueGo ok snap dbq s f tr =
        (Sync.applyMarks (Sync.passMarks ok snap) dbq,
         s + (snap.filter fun e => !e.synced && ok e).length,
         f + (snap.filter fun e => !e.synced && !ok e).length,
         tr ++ Sync.passTrace ok snap) := by
  intro snap
  induction snap with
  | nil => intro dbq s f tr; simp [Sync.syncQueueGo, Sync.passMarks, Sync.passTrace, Sync.applyMarks]
  | cons e rest ih =>
    intro dbq s f tr
    by_cases hs : e.synced
    · simp [Sync.syncQueueGo, hs, Sync.passMarks, Sync.passTrace, ih]
    · by_cases hk : ok e
      · have h1 : Sync.syncQueueGo ok (e :: rest) dbq s f tr =
            Sync.syncQueueGo ok rest (Sync.markSyncedList e.id dbq) (s + 1) f
              (tr ++ [(e.id, true)]) := by
          simp [Sync.syncQueueGo, hs, hk]
        rw [h1, ih]
        simp [Sync.passMarks, Sync.passTrace, Sync.applyMarks, hs, hk,
          Prod.mk.injEq]
        omega
      · have h1 : Sync.syncQueueGo ok (e :: rest) dbq s f tr =
            Sync.syncQueueGo ok rest dbq s (f + 1) (tr ++ [(e.id, false)]) := by
          simp [Sync.syncQueueGo, hs, hk]
        rw [h1, ih]
        simp [Sync.passMarks, Sync.passTrace, Sync.applyMarks, hs, hk,
          Prod.mk.injEq]
        omega

lemma Sync.syncQueue_queue (ok : SyncEvent → Bool) (q : List SyncEvent) :
    (Sync.syncQueue ok q).queue = Sync.applyMarks (Sync.passMarks ok q) q := by
  cases q with
  | nil => simp [Sync.syncQueue, Sync.passMarks, Sync.applyMarks]
  | cons e rest =>
    simp [Sync.syncQueue, Sync.syncQueueGo_spec]

lemma Sync.syncQueue_trace (ok : SyncEvent → Bool) (q : List SyncEvent) :
    (Sync.syncQueue ok q).trace = Sync.passTrace ok q := by
  cases q with
  | nil => simp [Sync.syncQueue, Sync.passTrace]
  | cons e rest =>
    simp [Sync.syncQueue, Sync.syncQueueGo_spec]

lemma Sync.syncQueue_result (ok : SyncEvent → Bool) (q : List SyncEvent) :
    (Sync.syncQueue ok q).result =
      ⟨(q.filter fun e => !e.synced && ok e).length,
       (q.filter fun e => !e.synced && !ok e).length, q.length⟩ := by
  cases q with
  | nil => simp [Sync.syncQueue]
  | cons e rest =>
    simp only [Sync.syncQueue, List.isEmpty_cons, Bool.false_eq_true, ite_false,
      Sync.syncQueueGo_spec]
    have hlen : (Sync.applyMarks (Sync.passMarks ok (e :: rest)) (e :: rest)).length =
        (e :: rest).length := by
      rw [Sync.applyMarks_eq_map, List.length_map]
    simp [hlen]

lemma Sync.passEvent_id (ok : SyncEvent → Bool) (e : SyncEvent) :
    (Sync.passEvent ok e).id = e.id := by
  unfold Sync.passEvent
  split <;> rfl

lemma Sync.syncQueue_ids (ok : SyncEvent → Bool) (q : List SyncEvent) :
    (Sync.syncQueue ok q).queue.map SyncEvent.id = q.map SyncEvent.id := by
  rw [Sync.syncQueue_queue, Sync.applyMarks_eq_map, List.map_map]
  apply List.map_congr_left
  intro e _
  by_cases h : e.id ∈ Sync.passMarks ok q <;> simp [h]

lemma Sync.mem_passMarks (ok : SyncEvent → Bool) {q : List SyncEvent}
    (hnd : (q.map SyncEvent.id).Nodup) {e : SyncEvent} (he : e ∈ q) :
    e.id ∈ Sync.passMarks ok q ↔ (!e.synced && ok e) = true := by
  unfold Sync.passMarks
  constructor
  · intro h
    obtain ⟨e', he', hid⟩ := List.mem_map.mp h
    obtain ⟨he'q, hp⟩ := List.mem_filter.mp he'
    have : e' = e := List.inj_on_of_nodup_map hnd he'q he hid
    rwa [this] at hp
  · intro h
    exact List.mem_map.mpr ⟨e, List.mem_filter.mpr ⟨he, h⟩, rfl⟩

lemma Sync.syncQueue_queue_eq_map (ok : SyncEvent → Bool) {q : List SyncEvent}
    (hnd : (q.map SyncEvent.id).Nodup) :
    (Sync.syncQueue ok q).queue = q.map (Sync.passEvent ok) := by
  rw [Sync.syncQueue_queue, Sync.applyMarks_eq_map]
  apply List.map_congr_left
  intro e he
  by_cases h : (!e.synced && ok e) = true
  · rw [if_pos ((Sync.mem_passMarks ok hnd he).mpr h), Sync.passEvent, if_pos h]
  · rw [if_neg (fun hc => h ((Sync.mem_passMarks ok hnd he).mp hc)),
      Sync.passEvent, if_neg h]

lemma Sync.drainGo_succ (oks : Nat → SyncEvent → Bool) (n : Nat)
    (q : List SyncEvent) :
    Sync.drainGo oks (n + 1) q =
      ((Sync.drainGo (fun k => oks (k + 1)) n (Sync.syncQueue (oks 0) q).queue).1,
       (Sync.syncQueue (oks 0) q).trace ++
         (Sync.drainGo (fun k => oks (k + 1)) n (Sync.syncQueue (oks 0) q).queue).2) := by
  simp [Sync.drainGo]

lemma Sync.successIds_append (a b : List (Nat × Bool)) :
    Sync.successIds (a ++ b) = Sync.successIds a ++ Sync.successIds b := by
  simp [Sync.successIds]

lemma Sync.successIds_passTrace (ok : SyncEvent → Bool) (q : List SyncEvent) :
    Sync.successIds (Sync.passTrace ok q) = Sync.passMarks ok q := by
  induction q with
  | nil => simp [Sync.successIds, Sync.passTrace, Sync.passMarks]
  | cons e rest ih =>
    by_cases hs : e.synced
    · simp [Sync.successIds, Sync.passTrace, Sync.passMarks, hs] at ih ⊢
      exact ih
    · by_cases hk : ok e
      · simp [Sync.successIds, Sync.passTrace, Sync.passMarks, hs, hk] at ih ⊢
        exact ih
      · simp [Sync.successIds, Sync.passTrace, Sync.passMarks, hs, hk] at ih ⊢
        exact ih

lemma Sync.mem_passMarks_mem_ids {ok : SyncEvent → Bool} {q : List SyncEvent}
    {i : Nat} (h : i ∈ Sync.passMarks ok q) : i ∈ q.map SyncEvent.id := by
  unfold Sync.passMarks at h
  obtain ⟨e, he, hid⟩ := List.mem_map.mp h
  exact List.mem_map.mpr ⟨e, (List.mem_filter.mp he).1, hid⟩

lemma Sync.passMarks_cons (ok : SyncEvent → Bool) (x : SyncEvent)
    (rest : List SyncEvent) :
    Sync.passMarks ok (x :: rest) =
      (if (!x.synced && ok x) = true then [x.id] else []) ++
        Sync.passMarks ok rest := by
  by_cases hp : (!x.synced && ok x) = true <;>
    simp [Sync.passMarks, List.filter_cons, hp]

lemma Sync.count_passMarks (ok : SyncEvent → Bool) :
    ∀ (q : List SyncEvent), (q.map SyncEvent.id).Nodup → ∀ e ∈ q,
      (Sync.passMarks ok q).count e.id =
        (if (!e.synced && ok e) = true then 1 else 0) := by
  intro q
  induction q with
  | nil => intro _ e he; simp at he
  | cons x rest ih =>
    intro hnd e he
    have hx : x.id ∉ rest.map SyncEvent.id := by
      simp only [List.map_cons, List.nodup_cons] at hnd
      exact hnd.1
    have hrest : (rest.map SyncEvent.id).Nodup := by
      simp only [List.map_cons, List.nodup_cons] at hnd
      exact hnd.2
    rcases List.mem_cons.mp he with rfl | he'
    · have htail : (Sync.passMarks ok rest).count e.id = 0 := by
        rw [List.count_eq_zero]
        intro hc
        exact hx (Sync.mem_passMarks_mem_ids hc)
      rw [Sync.passMarks_cons, List.count_append, htail]
      by_cases hp : (!e.synced && ok e) = true
      · rw [if_pos hp, if_pos hp]
        simp
      · rw [if_neg hp, if_neg hp]
        simp
    · have hne : e.id ≠ x.id := by
        intro hc
        exact hx (hc ▸ List.mem_map.mpr ⟨e, he', rfl⟩)
      rw [Sync.passMarks_cons, List.count_append]
      have hhead :
          (if (!x.synced && ok x) = true then [x.id] else []).count e.id = 0 := by
        split
        · simp [List.count_cons, hne]
        · simp
      rw [hhead, ih hrest e he']
      simp

lemma Sync.drainQueue_succ (oks : Nat → SyncEvent → Bool) (n : Nat)
    (q : List SyncEvent) :
    Sync.drainQueue oks (n + 1) q =
      Sync.drainQueue (fun k => oks (k + 1)) n (Sync.syncQueue (oks 0) q).queue :=
  rfl

lemma Sync.drainTrace_succ (oks : Nat → SyncEvent → Bool) (n : Nat)
    (q : List SyncEvent) :
    Sync.drainTrace oks (n + 1) q =
      (Sync.syncQueue (oks 0) q).trace ++
        Sync.drainTrace (fun k => oks (k + 1)) n (Sync.syncQueue (oks 0) q).queue :=
  rfl

/-! ## Claim theorems -/

/-- C6: `markEventSynced` is idempotent — marking the same record id a
second time leaves the queue state identical to marking it once, as a
no-op rather than an error. -/
theorem markEventSynced_idempotent (i : Nat) (s : DBState) :
    markEventSynced i (markEventSynced i s) = markEventSynced i s := by
  unfold markEventSynced
  simp only [List.map_map]
  congr 1
  apply List.map_congr_left
  intro e _
  by_cases h : e.id = i
  · simp [h]
  · simp [h]

/-- C7: `clearAllLocalData` wipes the four entity tables and the mutation
queue atomically: on success every one of the five cleared stores is
empty (and `preferences` is untouched), and on a storage failure inside
the transaction the whole state is unchanged — no partial wipe. -/
theorem clearAllLocalData_atomic_wipe (fl : ClearFailures) (s : DBState) :
    ((clearAllLocalData fl s).2 = none →
      (clearAllLocalData fl s).1.goals = [] ∧
      (clearAllLocalData fl s).1.seeds = [] ∧
      (clearAllLocalData fl s).1.daily_logs = [] ∧
      (clearAllLocalData fl s).1.integration_states = [] ∧
      (clearAllLocalData fl s).1.sync_events = [] ∧
      (clearAllLocalData fl s).1.preferences = s.preferences) ∧
    ((clearAllLocalData fl s).2 ≠ none → (clearAllLocalData fl s).1 = s) := by
  rcases fl with ⟨g, sd, dl, ist, se⟩
  cases g <;> cases sd <;> cases dl <;> cases ist <;> cases se <;>
    simp [clearAllLocalData, transactionRW, clearAllWork, Bind.bind, Except.bind]

/-- A sample populated database: one goal, one seed, one daily log, one
integration state, one unconsumed queued sync event, one preferences
row. -/
def sampleDB : DBState :=
  ⟨[⟨"g1", "local-user", "strength", .active, .drill, .pending, 0⟩],
   [⟨"s1", "g1", "1 minute", 1, "morning", none, 0, true, .pending⟩],
   [⟨"l1", "s1", 10, .done, none, none, none, .pending, 0⟩],
   [⟨"s1", 0, .not_yet, .pending, 0⟩],
   [⟨1, .log_done, "l1", .raw "p", 0, false⟩],
   [⟨"local-user", .small, .drill, true, none, none, 0⟩],
   2⟩

/-- Witness for C7: on `sampleDB` — whose queue holds an in-flight
unconsumed event — a failure-free `clearAllLocalData` empties all five
stores, and one whose `sync_events.clear()` fails leaves the state
unchanged. -/
theorem clearAllLocalData_atomic_wipe_witness :
    ((clearAllLocalData ⟨false, false, false, false, false⟩ sampleDB).2 = none ∧
      (clearAllLocalData ⟨false, false, false, false, false⟩ sampleDB).1.goals = [] ∧
      (clearAllLocalData ⟨false, false, false, false, false⟩ sampleDB).1.seeds = [] ∧
      (clearAllLocalData ⟨false, false, false, false, false⟩ sampleDB).1.daily_logs = [] ∧
      (clearAllLocalData ⟨false, false, false, false, false⟩ sampleDB).1.integration_states = [] ∧
      (clearAllLocalData ⟨false, false, false, false, false⟩ sampleDB).1.sync_events = [] ∧
      (clearAllLocalData ⟨false, false, false, false, false⟩ sampleDB).1.preferences = sampleDB.preferences) ∧
    ((clearAllLocalData ⟨false, false, false, false, true⟩ sampleDB).2 ≠ none ∧
      (clearAllLocalData ⟨false, false, false, false, true⟩ sampleDB).1 = sampleDB) := by
  refine ⟨⟨rfl, (clearAllLocalData_atomic_wipe ⟨false, false, false, false, false⟩ sampleDB).1 rfl⟩,
    ⟨?_, (clearAllLocalData_atomic_wipe ⟨false, false, false, false, true⟩ sampleDB).2 ?_⟩⟩
  · intro h
    exact Option.noConfusion h
  · intro h
    exact Option.noConfusion h

/-- C8 (amended): the result summary's `synced` and `failed` counts are
accurate for the pass, but `pending` is the total row count of the table
after the pass — consumed records kept for audit included — not the
number of unconsumed records. -/
theorem syncQueue_result_counts (ok : SyncEvent → Bool) (q : List SyncEvent) :
    (Sync.syncQueue ok q).result =
      ⟨(q.filter fun e => !e.synced && ok e).length,
       (q.filter fun e => !e.synced && !ok e).length,
       q.length⟩ :=
  Sync.syncQueue_result ok q

/-- C8 counterexample: on a queue holding one already-consumed record,
a drain pass reports `pending = 1` even though zero unconsumed records
remain — `stillPending` does not equal the number of unconsumed records
as claimed. -/
theorem syncQueue_pending_counts_consumed :
    (Sync.syncQueue (fun _ => true)
        [⟨1, .log_done, "a", .raw "p", 0, true⟩]).result.pending = 1 ∧
    ((Sync.syncQueue (fun _ => true)
        [⟨1, .log_done, "a", .raw "p", 0, true⟩]).queue.filter
          fun e => !e.synced).length = 0 := by
  decide

/-- C2 (amended): within one drain pass every unconsumed record of the
snapshot receives a remote call, in snapshot order, regardless of any
earlier failure in the pass — there is no skipping of later records for
an entity whose earlier record just failed. -/
theorem syncQueue_attempts_all_pending (ok : SyncEvent → Bool)
    (q : List SyncEvent) :
    (Sync.syncQueue ok q).trace =
      q.filterMap fun e => if e.synced then none else some (e.id, ok e) := by
  rw [Sync.syncQueue_trace]
  rfl

/-- C2 counterexample: two queued mutations for the same entity
`"seed-1"`; the first fails its remote call, yet the second is still
executed in the same pass (trace `[(1, false), (2, true)]`, not skipped),
and across two passes the successful remote calls for the entity are
observed as `[2, 1]` — the reverse of enqueue order. -/
theorem syncQueue_no_per_entity_skip :
    (Sync.syncQueue (fun e => e.id == 2)
        [⟨1, .update_seed, "seed-1", .raw "p1", 0, false⟩,
         ⟨2, .update_seed, "seed-1", .raw "p2", 1, false⟩]).trace =
      [(1, false), (2, true)] ∧
    Sync.successIds (Sync.drainTrace
        (fun k e => if k = 0 then e.id == 2 else true) 2
        [⟨1, .update_seed, "seed-1", .raw "p1", 0, false⟩,
         ⟨2, .update_seed, "seed-1", .raw "p2", 1, false⟩]) = [2, 1] := by
  decide

/-- C5: no record is marked consumed before its remote call succeeds:
after a drain pass interrupted at any point `k` (page unload mid-drain),
the table equals the original with exactly the successfully-called
records marked — every not-yet-delivered record is still pending — and
an uninterrupted pass is the `k = length` case of the same equation. -/
theorem syncQueue_no_premature_consume (ok : SyncEvent → Bool) (k : Nat)
    (q : List SyncEvent) :
    (Sync.syncQueuePartial ok k q).queue =
      q.map (fun e =>
        if e.id ∈ Sync.successIds (Sync.syncQueuePartial ok k q).trace
        then { e with synced := true } else e) ∧
    (Sync.syncQueue ok q).queue = (Sync.syncQueuePartial ok q.length q).queue := by
  constructor
  · have hq : (Sync.syncQueuePartial ok k q).queue =
        Sync.applyMarks (Sync.passMarks ok (q.take k)) q := by
      simp [Sync.syncQueuePartial, Sync.syncQueueGo_spec]
    have ht : (Sync.syncQueuePartial ok k q).trace =
        Sync.passTrace ok (q.take k) := by
      simp [Sync.syncQueuePartial, Sync.syncQueueGo_spec]
    rw [hq, ht, Sync.successIds_passTrace, Sync.applyMarks_eq_map]
  · have h2 : (Sync.syncQueuePartial ok q.length q).queue =
        Sync.applyMarks (Sync.passMarks ok (q.take q.length)) q := by
      simp [Sync.syncQueuePartial, Sync.syncQueueGo_spec]
    rw [Sync.syncQueue_queue, h2, List.take_length]

/-- C3: exactly-once delivery under repeated drains. Over any number of
passes after which every record is consumed, the queue loses no record
(the id list is preserved), and each record that started unconsumed got
exactly one successful remote call — in particular it was never executed
again after its call succeeded — while records that started consumed got
none. -/
theorem syncQueue_exactly_once_delivery (q : List SyncEvent)
    (oks : Nat → SyncEvent → Bool) (n : Nat)
    (hnd : (q.map SyncEvent.id).Nodup)
    (hall : ∀ e ∈ Sync.drainQueue oks n q, e.synced = true) :
    (Sync.drainQueue oks n q).map SyncEvent.id = q.map SyncEvent.id ∧
    ∀ e ∈ q, (Sync.successIds (Sync.drainTrace oks n q)).count e.id =
      (if e.synced then 0 else 1) := by
  revert hnd hall
  induction n generalizing q oks with
  | zero =>
    intro hnd hall
    refine ⟨rfl, ?_⟩
    intro e he
    simp [Sync.drainTrace, Sync.drainGo, Sync.successIds, hall e he]
  | succ n ih =>
    intro hnd hall
    have hq1 : (Sync.syncQueue (oks 0) q).queue = q.map (Sync.passEvent (oks 0)) :=
      Sync.syncQueue_queue_eq_map (oks 0) hnd
    have hids : (Sync.syncQueue (oks 0) q).queue.map SyncEvent.id =
        q.map SyncEvent.id := Sync.syncQueue_ids _ _
    have hnd1 : ((Sync.syncQueue (oks 0) q).queue.map SyncEvent.id).Nodup := by
      rw [hids]; exact hnd
    rw [Sync.drainQueue_succ] at hall
    obtain ⟨ih_ids, ih_count⟩ := ih _ _ hnd1 hall
    constructor
    · rw [Sync.drainQueue_succ, ih_ids, Sync.syncQueue_ids]
    · intro e he
      have he1 : Sync.passEvent (oks 0) e ∈ (Sync.syncQueue (oks 0) q).queue := by
        rw [hq1]; exact List.mem_map_of_mem _ he
      have hcount1 := ih_count _ he1
      rw [Sync.passEvent_id] at hcount1
      rw [Sync.drainTrace_succ, Sync.syncQueue_trace, Sync.successIds_append,
        List.count_append, Sync.successIds_passTrace,
        Sync.count_passMarks (oks 0) q hnd e he, hcount1]
      by_cases hs : e.synced
      · simp [Sync.passEvent, hs]
      · by_cases hk : oks 0 e
        · simp [Sync.passEvent, hs, hk]
        · simp [Sync.passEvent, hs, hk]

/-- Witness for C3: a two-record queue — ids 1 (unconsumed) and 2
(already consumed) — fully drained in one pass with an always-succeeding
remote: ids are preserved and the success counts are 1 and 0. -/
theorem syncQueue_exactly_once_delivery_witness :
    (([⟨1, .log_done, "a", .raw "p", 0, false⟩,
       ⟨2, .update_seed, "b", .raw "q", 1, true⟩] : List SyncEvent).map
        SyncEvent.id).Nodup ∧
    (∀ e ∈ Sync.drainQueue (fun _ _ => true) 1
        [⟨1, .log_done, "a", .raw "p", 0, false⟩,
         ⟨2, .update_seed, "b", .raw "q", 1, true⟩], e.synced = true) ∧
    ((Sync.drainQueue (fun _ _ => true) 1
        [⟨1, .log_done, "a", .raw "p", 0, false⟩,
         ⟨2, .update_seed, "b", .raw "q", 1, true⟩]).map SyncEvent.id =
       ([⟨1, .log_done, "a", .raw "p", 0, false⟩,
         ⟨2, .update_seed, "b", .raw "q", 1, true⟩] : List SyncEvent).map
          SyncEvent.id ∧
     ∀ e ∈ ([⟨1, .log_done, "a", .raw "p", 0, false⟩,
             ⟨2, .update_seed, "b", .raw "q", 1, true⟩] : List SyncEvent),
       (Sync.successIds (Sync.drainTrace (fun _ _ => true) 1
           [⟨1, .log_done, "a", .raw "p", 0, false⟩,
            ⟨2, .update_seed, "b", .raw "q", 1, true⟩])).count e.id =
         (if e.synced then 0 else 1)) :=
  ⟨by decide, by decide,
   syncQueue_exactly_once_delivery _ _ 1 (by decide) (by decide)⟩

/-! ## Derived forms of the legacy drain pass -/

/-- Net effect of the legacy pass on one snapshot record: deleted on
success, deleted on a failure that reaches `MAX_RETRIES`, otherwise kept
with the incremented retry counter and the error message. -/
def SyncV1.updOf (outcome : SyncV1.QueuedOperation → Option String)
    (op : SyncV1.QueuedOperation) : Option SyncV1.QueuedOperation :=
  match outcome op with
  | none => none
  | some msg =>
    let updatedOp := { op with retries := op.retries + 1, lastError := some msg }
    if SyncV1.MAX_RETRIES ≤ updatedOp.retries then none else some updatedOp

/-- Apply one keyed update (`none` deletes the id, `some` puts). -/
def SyncV1.stepUpd (dbq : List SyncV1.QueuedOperation)
    (p : String × Option SyncV1.QueuedOperation) : List SyncV1.QueuedOperation :=
  match p.2 with
  | none => SyncV1.deleteById p.1 dbq
  | some op' => SyncV1.putById op' dbq

/-- Apply a list of keyed updates in order. -/
def SyncV1.applyUpds (upds : List (String × Option SyncV1.QueuedOperation))
    (dbq : List SyncV1.QueuedOperation) : List SyncV1.QueuedOperation :=
  upds.foldl SyncV1.stepUpd dbq

/-- Resolve what a list of keyed updates does to one record. -/
def SyncV1.resolveUpd (upds : List (String × Option SyncV1.QueuedOperation))
    (o : SyncV1.QueuedOperation) : Option SyncV1.QueuedOperation :=
  match upds.find? (fun p => p.1 == o.id) with
  | none => some o
  | some (_, none) => none
  | some (_, some op') => some op'

lemma SyncV1.syncQueueGo_upds (outcome : SyncV1.QueuedOperation → Option String) :
    ∀ (snap dbq : List SyncV1.QueuedOperation) (s f : Nat),
      SyncV1.syncQueueGo outcome snap dbq s f =
        (SyncV1.applyUpds (snap.map fun op => (op.id, SyncV1.updOf outcome op)) dbq,
         s + (snap.filter fun op => (outcome op).isNone).length,
         f + (snap.filter fun op =>
                match outcome op with
                | none => false
                | some _ => decide (SyncV1.MAX_RETRIES ≤ op.retries + 1)).length) := by
  intro snap
  induction snap with
  | nil => intro dbq s f; simp [SyncV1.syncQueueGo, SyncV1.applyUpds]
  | cons op rest ih =>
    intro dbq s f
    cases ho : outcome op with
    | none =>
      have h1 : SyncV1.syncQueueGo outcome (op :: rest) dbq s f =
          SyncV1.syncQueueGo outcome rest (SyncV1.deleteById op.id dbq) (s + 1) f := by
        simp [SyncV1.syncQueueGo, ho]
      rw [h1, ih]
      simp [SyncV1.applyUpds, SyncV1.stepUpd, SyncV1.updOf, ho,
        List.filter_cons, Prod.mk.injEq]
      omega
    | some msg =>
      by_cases hm : SyncV1.MAX_RETRIES ≤ op.retries + 1
      · have h1 : SyncV1.syncQueueGo outcome (op :: rest) dbq s f =
            SyncV1.syncQueueGo outcome rest (SyncV1.deleteById op.id dbq) s (f + 1) := by
          simp [SyncV1.syncQueueGo, ho, hm]
        rw [h1, ih]
        simp [SyncV1.applyUpds, SyncV1.stepUpd, SyncV1.updOf, ho, hm,
          List.filter_cons, Prod.mk.injEq]
        omega
      · have h1 : SyncV1.syncQueueGo outcome (op :: rest) dbq s f =
            SyncV1.syncQueueGo outcome rest
              (SyncV1.putById
                { op with retries := op.retries + 1, lastError := some msg } dbq)
              s f := by
          simp [SyncV1.syncQueueGo, ho, hm]
        rw [h1, ih]
        simp [SyncV1.applyUpds, SyncV1.stepUpd, SyncV1.updOf, ho, hm,
          List.filter_cons, Prod.mk.injEq]

lemma SyncV1.applyUpds_resolve :
    ∀ (upds : List (String × Option SyncV1.QueuedOperation))
      (dbq : List SyncV1.QueuedOperation),
      (dbq.map SyncV1.QueuedOperation.id).Nodup →
      (upds.map Prod.fst).Nodup →
      (∀ p ∈ upds, p.1 ∈ dbq.map SyncV1.QueuedOperation.id) →
      (∀ p ∈ upds, ∀ op', p.2 = some op' → op'.id = p.1) →
      SyncV1.applyUpds upds dbq = dbq.filterMap (SyncV1.resolveUpd upds) := by
  intro upds
  induction upds with
  | nil =>
    intro dbq _ _ _ _
    have h : SyncV1.resolveUpd [] = Option.some := funext fun o => rfl
    show dbq = dbq.filterMap (SyncV1.resolveUpd [])
    rw [h, List.filterMap_some]
  | cons hd rest ih =>
    obtain ⟨i, u⟩ := hd
    intro dbq hnd hup hin hval
    simp only [List.map_cons, List.nodup_cons] at hup
    obtain ⟨hni, hur⟩ := hup
    have hi : i ∈ dbq.map SyncV1.QueuedOperation.id :=
      hin (i, u) (List.mem_cons_self _ _)
    have hval' : ∀ p ∈ rest, ∀ op', p.2 = some op' → op'.id = p.1 :=
      fun p hp => hval p (List.mem_cons_of_mem _ hp)
    cases u with
    | none =>
      have hstep : SyncV1.applyUpds ((i, none) :: rest) dbq =
          SyncV1.applyUpds rest (SyncV1.deleteById i dbq) := rfl
      have hnd' : ((SyncV1.deleteById i dbq).map SyncV1.QueuedOperation.id).Nodup :=
        ((List.filter_sublist dbq).map _).nodup hnd
      have hin' : ∀ p ∈ rest,
          p.1 ∈ (SyncV1.deleteById i dbq).map SyncV1.QueuedOperation.id := by
        intro p hp
        obtain ⟨o, ho, hid⟩ := List.mem_map.mp (hin p (List.mem_cons_of_mem _ hp))
        have hne : p.1 ≠ i := fun hc => hni (hc ▸ List.mem_map.mpr ⟨p, hp, rfl⟩)
        refine List.mem_map.mpr ⟨o, List.mem_filter.mpr ⟨ho, ?_⟩, hid⟩
        simp [hid, hne]
      rw [hstep, ih _ hnd' hur hin' hval']
      show (dbq.filter fun o => !(o.id == i)).filterMap (SyncV1.resolveUpd rest) = _
      rw [List.filterMap_filter]
      apply List.filterMap_congr
      intro o _
      by_cases h : o.id = i
      · rw [if_neg (by simp [h])]
        unfold SyncV1.resolveUpd
        rw [List.find?_cons_of_pos _ (by simp [h])]
      · rw [if_pos (by simp [h])]
        unfold SyncV1.resolveUpd
        rw [List.find?_cons_of_neg _ (by simp only [beq_iff_eq]; exact fun hc => h hc.symm)]
    | some op' =>
      have hop : op'.id = i := hval (i, some op') (List.mem_cons_self _ _) op' rfl
      have hmem : (dbq.any fun o => o.id == op'.id) = true := by
        obtain ⟨o, ho, hid⟩ := List.mem_map.mp hi
        exact List.any_eq_true.mpr ⟨o, ho, by simp [hid, hop]⟩
      have hstep : SyncV1.applyUpds ((i, some op') :: rest) dbq =
          SyncV1.applyUpds rest
            (dbq.map fun o => if o.id == op'.id then op' else o) := by
        show SyncV1.applyUpds rest (SyncV1.putById op' dbq) = _
        rw [SyncV1.putById, if_pos hmem]
      have hids : (dbq.map fun o => if o.id == op'.id then op' else o).map
          SyncV1.QueuedOperation.id = dbq.map SyncV1.QueuedOperation.id := by
        rw [List.map_map]
        apply List.map_congr_left
        intro o _
        by_cases h : o.id = op'.id
        · simp [Function.comp, h]
        · simp [Function.comp, h]
      have hnd' : ((dbq.map fun o => if o.id == op'.id then op' else o).map
          SyncV1.QueuedOperation.id).Nodup := by rw [hids]; exact hnd
      have hin' : ∀ p ∈ rest,
          p.1 ∈ (dbq.map fun o => if o.id == op'.id then op' else o).map
            SyncV1.QueuedOperation.id := by
        intro p hp
        rw [hids]
        exact hin p (List.mem_cons_of_mem _ hp)
      rw [hstep, ih _ hnd' hur hin' hval', List.filterMap_map]
      apply List.filterMap_congr
      intro o _
      have hrestnone : ∀ j, j = i → rest.find? (fun p => p.1 == j) = none := by
        intro j hj
        apply List.find?_eq_none.mpr
        intro p hp
        simp only [beq_iff_eq]
        intro hc
        exact hni (hj ▸ hc ▸ List.mem_map.mpr ⟨p, hp, rfl⟩)
      by_cases h : o.id = i
      · have hb : (o.id == op'.id) = true := by simp [h, hop]
        simp only [Function.comp, hb, if_true, ite_true]
        unfold SyncV1.resolveUpd
        rw [List.find?_cons_of_pos _ (by simp [h]), hrestnone op'.id hop]
      · have hb : (o.id == op'.id) = false := by
          simp only [beq_eq_false_iff_ne, ne_eq]
          exact fun hc => h (hop ▸ hc)
        simp only [Function.comp, hb, Bool.false_eq_true, if_false, ite_false]
        unfold SyncV1.resolveUpd
        rw [List.find?_cons_of_neg _ (by simp only [beq_iff_eq]; exact fun hc => h hc.symm)]

lemma SyncV1.find?_self :
    ∀ (q : List SyncV1.QueuedOperation),
      (q.map SyncV1.QueuedOperation.id).Nodup → ∀ o ∈ q,
        q.find? (fun op => op.id == o.id) = some o := by
  intro q
  induction q with
  | nil => intro _ o ho; simp at ho
  | cons x rest ih =>
    intro hnd o ho
    simp only [List.map_cons, List.nodup_cons] at hnd
    rcases List.mem_cons.mp ho with rfl | ho'
    · rw [List.find?_cons_of_pos _ (by simp)]
    · have hne : x.id ≠ o.id := fun hc =>
        hnd.1 (hc ▸ List.mem_map.mpr ⟨o, ho', rfl⟩)
      rw [List.find?_cons_of_neg _ (by simp only [beq_iff_eq]; exact hne)]
      exact ih hnd.2 o ho'

lemma SyncV1.syncQueue_queue_char (outcome : SyncV1.QueuedOperation → Option String)
    (q : List SyncV1.QueuedOperation)
    (hnd : (q.map SyncV1.QueuedOperation.id).Nodup) :
    (SyncV1.syncQueue outcome q).1 = q.filterMap (SyncV1.updOf outcome) := by
  cases q with
  | nil => rfl
  | cons x rest =>
    have h1 : (SyncV1.syncQueue outcome (x :: rest)).1 =
        SyncV1.applyUpds
          ((x :: rest).map fun op => (op.id, SyncV1.updOf outcome op))
          (x :: rest) := by
      simp [SyncV1.syncQueue, SyncV1.syncQueueGo_upds]
    rw [h1, SyncV1.applyUpds_resolve _ _ hnd ?hup ?hin ?hval]
    · apply List.filterMap_congr
      intro o ho
      unfold SyncV1.resolveUpd
      rw [List.find?_map]
      rw [show ((fun p : String × Option SyncV1.QueuedOperation => p.1 == o.id) ∘
            fun op => (op.id, SyncV1.updOf outcome op)) =
          fun op => op.id == o.id from rfl]
      rw [SyncV1.find?_self _ hnd o ho]
      cases hu : SyncV1.updOf outcome o <;> simp [hu]
    case hup =>
      simpa [List.map_map, Function.comp] using hnd
    case hin =>
      intro p hp
      obtain ⟨op, hop, rfl⟩ := List.mem_map.mp hp
      exact List.mem_map.mpr ⟨op, hop, rfl⟩
    case hval =>
      intro p hp op' hp2
      obtain ⟨op, hop, rfl⟩ := List.mem_map.mp hp
      revert hp2
      cases ho : outcome op with
      | none => simp [SyncV1.updOf, ho]
      | some msg =>
        by_cases hm : SyncV1.MAX_RETRIES ≤ op.retries + 1
        · simp [SyncV1.updOf, ho, hm]
        · simp only [SyncV1.updOf, ho, hm, ite_false, Option.some.injEq]
          intro h
          rw [← h]

/-- C4 counterexample. Current engine: a record whose remote call keeps
failing with a definitive client error is, after four drain passes —
beyond any bounded retry count — still unconsumed in the queue, with no
consumed-marking and no error-reporting surfacing. Legacy engine: a
record at `retries = 2` failing with a transient network error
(`'Failed to fetch'`) is deleted from the queue rather than marked
consumed, so transient errors receive the poison treatment too. -/
theorem failing_record_poison_counterexample :
    Sync.drainQueue (fun _ _ => false) 4
        [⟨1, .log_done, "a", .raw "p", 0, false⟩] =
      [⟨1, .log_done, "a", .raw "p", 0, false⟩] ∧
    SyncV1.syncQueue (fun _ => some "Failed to fetch")
        [⟨"a", .LOG_DONE, .raw "p", 0, 2, none⟩] =
      ([], ⟨0, 1, 0⟩) := by
  decide

/-- C4 (amended): neither engine version poison-marks a record as
consumed. In the legacy engine one pass acts per snapshot record as:
delete on success; on any failure — transient or definitive alike, the
error kind is never classified — increment the retry counter once and,
when it reaches `MAX_RETRIES = 3`, delete the record (surfacing only a
console log), otherwise keep it with the updated counter and message.
In the current engine a failing unconsumed record is simply left queued
unchanged, with no retry counter at all. -/
theorem syncQueue_failure_policy :
    (∀ (outcome : SyncV1.QueuedOperation → Option String)
       (q : List SyncV1.QueuedOperation),
       (q.map SyncV1.QueuedOperation.id).Nodup →
       (SyncV1.syncQueue outcome q).1 = q.filterMap fun op =>
         match outcome op with
         | none => none
         | some msg =>
           if SyncV1.MAX_RETRIES ≤ op.retries + 1 then none
           else some { op with retries := op.retries + 1, lastError := some msg }) ∧
    (∀ (ok : SyncEvent → Bool) (q : List SyncEvent) (e : SyncEvent),
       (q.map SyncEvent.id).Nodup → e ∈ q → e.synced = false → ok e = false →
       e ∈ (Sync.syncQueue ok q).queue) := by
  constructor
  · intro outcome q hnd
    have hfn : (fun op : SyncV1.QueuedOperation =>
        match outcome op with
        | none => none
        | some msg =>
          if SyncV1.MAX_RETRIES ≤ op.retries + 1 then none
          else some { op with retries := op.retries + 1, lastError := some msg }) =
        SyncV1.updOf outcome := by
      funext op
      cases ho : outcome op <;> simp [SyncV1.updOf, ho]
    rw [hfn]
    exact SyncV1.syncQueue_queue_char outcome q hnd
  · intro ok q e hnd he hs hk
    rw [Sync.syncQueue_queue_eq_map ok hnd]
    have h : Sync.passEvent ok e = e := by simp [Sync.passEvent, hs, hk]
    exact h ▸ List.mem_map_of_mem (Sync.passEvent ok) he

/-- Witness for C4's amended theorem: the legacy pass over a two-record
queue where every call fails deletes the record at `retries = 2` and
keeps the other with its counter incremented; the current engine keeps a
failing unconsumed record in the queue. -/
theorem syncQueue_failure_policy_witness :
    (SyncV1.syncQueue (fun _ => some "HTTP 404")
        [⟨"a", .LOG_DONE, .raw "p", 0, 2, none⟩,
         ⟨"b", .LOG_SKIP, .raw "q", 1, 0, none⟩]).1 =
      [⟨"b", .LOG_SKIP, .raw "q", 1, 1, some "HTTP 404"⟩] ∧
    (⟨5, .log_done, "x", .raw "p", 0, false⟩ : SyncEvent) ∈
      (Sync.syncQueue (fun _ => false)
        [⟨5, .log_done, "x", .raw "p", 0, false⟩]).queue := by
  constructor
  · rw [syncQueue_failure_policy.1 _ _ (by decide)]
    decide
  · exact syncQueue_failure_policy.2 _ _ _ (by decide) (by decide) rfl rfl

/-- C9 counterexample: with one unconsumed record queued and both
triggers firing (schedule A, B, A, B), after two steps both drain tasks
are simultaneously mid-drain over their own snapshots — the second
trigger neither no-ops nor waits for the first to complete — and the
trace shows the single record's remote call executed twice, once by each
overlapping drain. -/
theorem overlapping_drains_counterexample :
    (Listeners.run (fun _ => true) [true, false]
        ⟨[⟨1, .log_done, "a", .raw "p", 0, false⟩], .idle, .idle⟩).1.drainA =
      .running [⟨1, .log_done, "a", .raw "p", 0, false⟩] 0 0 ∧
    (Listeners.run (fun _ => true) [true, false]
        ⟨[⟨1, .log_done, "a", .raw "p", 0, false⟩], .idle, .idle⟩).1.drainB =
      .running [⟨1, .log_done, "a", .raw "p", 0, false⟩] 0 0 ∧
    (Listeners.run (fun _ => true) [true, false, true, false]
        ⟨[⟨1, .log_done, "a", .raw "p", 0, false⟩], .idle, .idle⟩).2 =
      [(true, 1, true), (false, 1, true)] := by
  decide

/-- C9 (amended): the sync module holds no drain-in-progress guard: a
trigger arriving while the other task is mid-drain unconditionally
starts its own drain with a fresh snapshot of the table — it is neither
a no-op nor deferred — so overlapping drains can both execute the same
record's remote call, and only the remote API's idempotency bounds the
effect. -/
theorem drain_trigger_always_starts (ok : SyncEvent → Bool)
    (st : Listeners.SysState) :
    (st.drainA = .idle →
      (Listeners.step ok true st).1.drainA = .running st.queue 0 0) ∧
    (st.drainB = .idle →
      (Listeners.step ok false st).1.drainB = .running st.queue 0 0) := by
  constructor
  · intro h
    simp [Listeners.step, Listeners.stepDrain, h]
  · intro h
    simp [Listeners.step, Listeners.stepDrain, h]

/-- Witness for C9's amended theorem: a trigger on idle task B while
task A is mid-drain still starts B's drain over the current table. -/
theorem drain_trigger_always_starts_witness :
    ((⟨[⟨1, .log_done, "a", .raw "p", 0, true⟩], .running [] 1 0, .idle⟩ :
        Listeners.SysState).drainB = .idle) ∧
    (Listeners.step (fun _ => true) false
        ⟨[⟨1, .log_done, "a", .raw "p", 0, true⟩], .running [] 1 0, .idle⟩).1.drainB =
      .running [⟨1, .log_done, "a", .raw "p", 0, true⟩] 0 0 :=
  ⟨rfl,
   (drain_trigger_always_starts (fun _ => true)
     ⟨[⟨1, .log_done, "a", .raw "p", 0, true⟩], .running [] 1 0, .idle⟩).2 rfl⟩

/-- C1 counterexample: running `logDone` on an empty database but
interrupting after its first durable commit (the entity transaction)
leaves the daily log written while the sync queue is empty — the entity
change is observable without its Mutation Record, violating
both-or-neither. -/
theorem logDone_interrupted_counterexample :
    ((applyCommits
        ((logDone 100 "log-1" 5 ⟨"seed-1", none, none⟩
            ⟨[], [], [], [], [], [], 1⟩).2.1.take 1)
        ⟨[], [], [], [], [], [], 1⟩).1.daily_logs.length = 1) ∧
    ((applyCommits
        ((logDone 100 "log-1" 5 ⟨"seed-1", none, none⟩
            ⟨[], [], [], [], [], [], 1⟩).2.1.take 1)
        ⟨[], [], [], [], [], [], 1⟩).1.sync_events = []) := by
  decide

/-- C1 (amended): in `logDone` (under a passing duplicate guard) and in
`completeOnboarding`, the first durable commit is the entity transaction
and contains no sync-queue append; every sync-queue append is a separate
commit strictly after it. The Mutation Record is therefore not written
in the same transaction as the entity write, and an interruption between
the commits leaves the entity change observable without its queue entry. -/
theorem domain_actions_enqueue_after_transaction :
    (∀ (today : Nat) (logId : String) (now : Nat) (p : LogDoneParams)
       (s : DBState),
       s.daily_logs.find? (fun l => l.seed_id == p.seedId && l.date == today) =
         none →
       ∃ ws rest, (logDone today logId now p s).2.1 = Commit.tx ws :: rest ∧
         (∀ w ∈ ws, w.isSyncEventAppend = false) ∧
         (∀ c ∈ rest, ∀ w ∈ c.writes, w.isSyncEventAppend = true)) ∧
    (∀ (goalId seedId : String) (now : Nat) (p : CompleteOnboardingParams)
       (s : DBState),
       ∃ ws rest, (completeOnboarding goalId seedId now p s).2.1 =
           Commit.tx ws :: rest ∧
         (∀ w ∈ ws, w.isSyncEventAppend = false) ∧
         (∀ c ∈ rest, ∀ w ∈ c.writes, w.isSyncEventAppend = true)) := by
  constructor
  · intro today logId now p s h
    simp only [logDone, h]
    split
    · refine ⟨_, [], rfl, ?_, ?_⟩
      · intro w hw
        simp only [List.mem_cons, List.not_mem_nil, or_false] at hw
        rcases hw with rfl | rfl <;> rfl
      · intro c hc
        simp at hc
    · refine ⟨_, _, rfl, ?_, ?_⟩
      · intro w hw
        simp only [List.mem_cons, List.not_mem_nil, or_false] at hw
        rcases hw with rfl | rfl <;> rfl
      · intro c hc
        simp only [List.mem_cons, List.not_mem_nil, or_false] at hc
        rcases hc with rfl | rfl <;>
          (intro w hw;
           simp only [Commit.writes, List.mem_cons, List.not_mem_nil,
             or_false] at hw;
           subst hw; rfl)
  · intro goalId seedId now p s
    simp only [completeOnboarding]
    split
    · refine ⟨_, [], rfl, ?_, ?_⟩
      · intro w hw
        simp only [List.mem_cons, List.not_mem_nil, or_false] at hw
        rcases hw with rfl | rfl | rfl <;> rfl
      · intro c hc
        simp at hc
    · refine ⟨_, _, rfl, ?_, ?_⟩
      · intro w hw
        simp only [List.mem_cons, List.not_mem_nil, or_false] at hw
        rcases hw with rfl | rfl | rfl <;> rfl
      · intro c hc
        simp only [List.mem_cons, List.not_mem_nil, or_false] at hc
        rcases hc with rfl | rfl | rfl <;>
          (intro w hw;
           simp only [Commit.writes, List.mem_cons, List.not_mem_nil,
             or_false] at hw;
           subst hw; rfl)

/-- Witness for C1's amended theorem at concrete inputs: `logDone` on an
empty database (guard passes) and `completeOnboarding`. -/
theorem domain_actions_enqueue_after_transaction_witness :
    (((⟨[], [], [], [], [], [], 1⟩ : DBState).daily_logs.find?
        (fun l => l.seed_id == ("seed-1" : String) && l.date == 100) = none) ∧
     ∃ ws rest, (logDone 100 "log-1" 5 ⟨"seed-1", none, none⟩
         ⟨[], [], [], [], [], [], 1⟩).2.1 = Commit.tx ws :: rest ∧
       (∀ w ∈ ws, w.isSyncEventAppend = false) ∧
       (∀ c ∈ rest, ∀ w ∈ c.writes, w.isSyncEventAppend = true)) ∧
    (∃ ws rest, (completeOnboarding "g1" "s1" 7
        ⟨"strength", .small, .drill, "1 minute", none, none, none⟩
        ⟨[], [], [], [], [], [], 1⟩).2.1 = Commit.tx ws :: rest ∧
      (∀ w ∈ ws, w.isSyncEventAppend = false) ∧
      (∀ c ∈ rest, ∀ w ∈ c.writes, w.isSyncEventAppend = true)) :=
  ⟨⟨rfl, domain_actions_enqueue_after_transaction.1 100 "log-1" 5
      ⟨"seed-1", none, none⟩ ⟨[], [], [], [], [], [], 1⟩ rfl⟩,
   domain_actions_enqueue_after_transaction.2 "g1" "s1" 7
     ⟨"strength", .small, .drill, "1 minute", none, none, none⟩
     ⟨[], [], [], [], [], [], 1⟩⟩

lemma applyWrite_error_constraint (w : TableWrite) (s : DBState) (e : Err)
    (h : applyWrite w s = .error e) : e = Err.constraintError := by
  cases w with
  | addDailyLog l =>
    simp only [applyWrite] at h
    split at h
    · injection h with h'; exact h'.symm
    · exact Except.noConfusion h
  | putIntegrationState st =>
    simp only [applyWrite] at h
    split at h <;> exact Except.noConfusion h
  | addGoal g =>
    simp only [applyWrite] at h
    split at h
    · injection h with h'; exact h'.symm
    · exact Except.noConfusion h
  | addSeed sd =>
    simp only [applyWrite] at h
    split at h
    · injection h with h'; exact h'.symm
    · exact Except.noConfusion h
  | addIntegrationState st =>
    simp only [applyWrite] at h
    split at h
    · injection h with h'; exact h'.symm
    · exact Except.noConfusion h
  | addSyncEvent d now =>
    simp only [applyWrite] at h
    exact Except.noConfusion h

lemma applyWrites_error_constraint :
    ∀ (ws : List TableWrite) (s : DBState) (e : Err),
      applyWrites ws s = .error e → e = Err.constraintError := by
  intro ws
  induction ws with
  | nil => intro s e h; exact Except.noConfusion h
  | cons w rest ih =>
    intro s e h
    unfold applyWrites at h
    cases hw : applyWrite w s with
    | ok s' =>
      rw [hw] at h
      exact ih s' e h
    | error e' =>
      rw [hw] at h
      have h' : (Except.error e' : Except Err DBState) = Except.error e := h
      injection h' with h2
      exact h2 ▸ applyWrite_error_constraint w s e' hw

lemma applyCommit_error_constraint (c : Commit) (s s1 : DBState) (e : Err)
    (h : applyCommit c s = (s1, some e)) : e = Err.constraintError := by
  cases c with
  | tx ws =>
    simp only [applyCommit] at h
    cases hws : applyWrites ws s with
    | ok s' =>
      rw [hws] at h
      simp at h
    | error e0 =>
      rw [hws] at h
      have h' : ((s, some e0) : DBState × Option Err) = (s1, some e) := h
      have h2 : some e0 = some e := congrArg Prod.snd h'
      injection h2 with h3
      exact h3 ▸ applyWrites_error_constraint ws s e0 hws
  | single w =>
    simp only [applyCommit] at h
    cases hw : applyWrite w s with
    | ok s' =>
      rw [hw] at h
      simp at h
    | error e0 =>
      rw [hw] at h
      have h' : ((s, some e0) : DBState × Option Err) = (s1, some e) := h
      have h2 : some e0 = some e := congrArg Prod.snd h'
      injection h2 with h3
      exact h3 ▸ applyWrite_error_constraint w s e0 hw

/-- C10: at most one daily log per seed and calendar day. `logDone` and
`logSkip` throw `'Already logged for today'` exactly when a log for the
same seed and date already exists, and in that case they return with no
commit performed: the local store and the mutation queue are unchanged. -/
theorem daily_log_unique_per_day_guard (today : Nat) (logId : String)
    (now : Nat) (p : LogDoneParams) (ps : LogSkipParams) (s : DBState) :
    ((logDone today logId now p s).2.2 = .error .alreadyLogged ↔
       ∃ l ∈ s.daily_logs, l.seed_id = p.seedId ∧ l.date = today) ∧
    ((logDone today logId now p s).2.2 = .error .alreadyLogged →
       logDone today logId now p s = (s, [], .error .alreadyLogged)) ∧
    ((logSkip today logId now ps s).2.2 = .error .alreadyLogged ↔
       ∃ l ∈ s.daily_logs, l.seed_id = ps.seedId ∧ l.date = today) ∧
    ((logSkip today logId now ps s).2.2 = .error .alreadyLogged →
       logSkip today logId now ps s = (s, [], .error .alreadyLogged)) := by
  have hd : ((logDone today logId now p s).2.2 = .error .alreadyLogged ↔
       ∃ l ∈ s.daily_logs, l.seed_id = p.seedId ∧ l.date = today) ∧
      ((logDone today logId now p s).2.2 = .error .alreadyLogged →
       logDone today logId now p s = (s, [], .error .alreadyLogged)) := by
    cases hf : s.daily_logs.find? (fun l => l.seed_id == p.seedId && l.date == today) with
    | some l =>
      have hm := List.mem_of_find?_eq_some hf
      have hp := List.find?_some hf
      rw [Bool.and_eq_true, beq_iff_eq, beq_iff_eq] at hp
      refine ⟨⟨fun _ => ⟨l, hm, hp.1, hp.2⟩, fun _ => ?_⟩, fun _ => ?_⟩
      · simp [logDone, hf]
      · simp [logDone, hf]
    | none =>
      have hne : (logDone today logId now p s).2.2 ≠ Except.error Err.alreadyLogged := by
        simp only [logDone, hf]
        split
        · rename_i s1 e heq
          have he := applyCommit_error_constraint _ _ _ _ heq
          intro hx
          have hx' : (Except.error e : Except Err LogDoneResult) =
              Except.error Err.alreadyLogged := hx
          injection hx' with hx2
          rw [he] at hx2
          exact Err.noConfusion hx2
        · intro hx
          exact Except.noConfusion
            (show (Except.ok _ : Except Err LogDoneResult) =
              Except.error Err.alreadyLogged from hx)
      have hnex : ¬∃ l ∈ s.daily_logs, l.seed_id = p.seedId ∧ l.date = today := by
        rintro ⟨l, hl, h1, h2⟩
        have hcontra := List.find?_eq_none.mp hf l hl
        simp [h1, h2] at hcontra
      exact ⟨⟨fun hx => absurd hx hne, fun hx => absurd hx hnex⟩,
             fun hx => absurd hx hne⟩
  have hs2 : ((logSkip today logId now ps s).2.2 = .error .alreadyLogged ↔
       ∃ l ∈ s.daily_logs, l.seed_id = ps.seedId ∧ l.date = today) ∧
      ((logSkip today logId now ps s).2.2 = .error .alreadyLogged →
       logSkip today logId now ps s = (s, [], .error .alreadyLogged)) := by
    cases hf : s.daily_logs.find? (fun l => l.seed_id == ps.seedId && l.date == today) with
    | some l =>
      have hm := List.mem_of_find?_eq_some hf
      have hp := List.find?_some hf
      rw [Bool.and_eq_true, beq_iff_eq, beq_iff_eq] at hp
      refine ⟨⟨fun _ => ⟨l, hm, hp.1, hp.2⟩, fun _ => ?_⟩, fun _ => ?_⟩
      · simp [logSkip, hf]
      · simp [logSkip, hf]
    | none =>
      have hne : (logSkip today logId now ps s).2.2 ≠ Except.error Err.alreadyLogged := by
        simp only [logSkip, hf]
        split
        · rename_i s1 e heq
          have he := applyCommit_error_constraint _ _ _ _ heq
          intro hx
          have hx' : (Except.error e : Except Err LocalDailyLog) =
              Except.error Err.alreadyLogged := hx
          injection hx' with hx2
          rw [he] at hx2
          exact Err.noConfusion hx2
        · intro hx
          exact Except.noConfusion
            (show (Except.ok _ : Except Err LocalDailyLog) =
              Except.error Err.alreadyLogged from hx)
      have hnex : ¬∃ l ∈ s.daily_logs, l.seed_id = ps.seedId ∧ l.date = today := by
        rintro ⟨l, hl, h1, h2⟩
        have hcontra := List.find?_eq_none.mp hf l hl
        simp [h1, h2] at hcontra
      exact ⟨⟨fun hx => absurd hx hne, fun hx => absurd hx hnex⟩,
             fun hx => absurd hx hne⟩
  exact ⟨hd.1, hd.2, hs2.1, hs2.2⟩

/-- Witness for C10 on `sampleDB`, which already holds a log for seed
`"s1"` on day 10: both actions throw `'Already logged for today'` and
leave the database, including the sync queue, unchanged. -/
theorem daily_log_unique_per_day_guard_witness :
    (logDone 10 "l2" 5 ⟨"s1", none, none⟩ sampleDB).2.2 =
      .error .alreadyLogged ∧
    logDone 10 "l2" 5 ⟨"s1", none, none⟩ sampleDB =
      (sampleDB, [], .error .alreadyLogged) ∧
    (logSkip 10 "l3" 5 ⟨"s1", .forgot, none⟩ sampleDB).2.2 =
      .error .alreadyLogged ∧
    logSkip 10 "l3" 5 ⟨"s1", .forgot, none⟩ sampleDB =
      (sampleDB, [], .error .alreadyLogged) := by
  have h := daily_log_unique_per_day_guard 10 "l2" 5 ⟨"s1", none, none⟩
    ⟨"s1", .forgot, none⟩ sampleDB
  have h1 := h.1.mpr (by decide)
  have h3 := h.2.2.1.mpr (by decide)
  exact ⟨h1, h.2.1 h1, h3, h.2.2.2 h3⟩
